import Mathlib

/-!
# Verification of the Mangatan-WebUI reader navigation & progress engine

A shallow embedding of the reader core of the repository:

* the pagination calculation of `PagedReader.tsx` (the effect at lines
  133-163 that turns a measured flow extent into a page count),
* the navigation operations `goToPage`, `goToSection`, `goNext`, `goPrev`
  of `PagedReader.tsx`,
* the sentence-anchor encoding `getSentenceContext` of `useTextLookup.ts`
  (first variant, lines 82-146), including the stateful behaviour of the
  global regex `/[。！？.!?]/g` used with `.test`,
* the restoration effect of `ContinuousReader.tsx` (lines 133-185) and the
  initial-navigation effect of `PagedReader.tsx` (lines 197-212),
* the touch-gesture drag flag of `PagedReader.tsx` / `useReaderCore`,
* the progress-save guard `handleSaveProgress` of `LNReaderScreen`.

JavaScript numbers are modelled as rationals, JavaScript strings as
`List Char`, and the DOM text-node walker as a list of text-node contents.
-/

namespace Mangatan

/-! ## JavaScript numeric primitives -/

/-- JavaScript `Math.round` on a (finite, non-half-negative) number:
rounds half away from zero towards `+∞`, i.e. `⌊x + 1/2⌋`. -/
def jsRound (q : ℚ) : ℤ := ⌊q + 1/2⌋

/-! ## Pagination calculation (`PagedReader.tsx`, lines 133-163)

```js
const scrollSize = isVertical ? content.scrollHeight : content.scrollWidth;
const viewportSize = isVertical ? dimensions.height : dimensions.width;
if (scrollSize <= viewportSize + 5) { setTotalPages(1); ... return; }
const pageWidth = columnWidth + COLUMN_GAP;
const calculatedPages = scrollSize / pageWidth;
const pages = Math.max(1, Math.round(calculatedPages));
setTotalPages(pages);
```
`scrollSize` is the measured flow-axis extent, `viewportSize` the viewport
flow-axis extent and `pageWidth` the page stride (column extent plus the
40px column gap). -/
def pagedTotalPages (scrollSize viewportSize pageWidth : ℚ) : ℤ :=
  if scrollSize ≤ viewportSize + 5 then 1
  else max 1 (jsRound (scrollSize / pageWidth))

/-- C9: the computed page metrics satisfy `totalPages ≥ 1` for every
measured flow extent, viewport extent and page stride. -/
theorem claimC9_totalPages_pos (scrollSize viewportSize pageWidth : ℚ) :
    1 ≤ pagedTotalPages scrollSize viewportSize pageWidth := by
  unfold pagedTotalPages
  split
  · exact le_refl 1
  · exact le_max_left 1 _

/-- The spec's version of the pagination formula (for comparison with
`pagedTotalPages`): one page when the flow extent fits the viewport up to
the epsilon, otherwise `⌈flowExtent / pageStride⌉`. -/
def specTotalPagesCeil (scrollSize viewportSize pageWidth : ℚ) : ℤ :=
  if scrollSize ≤ viewportSize + 5 then 1
  else Int.ceil (scrollSize / pageWidth)

theorem jsRound_le_ceil (x : ℚ) : jsRound x ≤ ⌈x⌉ := by
  unfold jsRound
  rw [Int.floor_le_iff]
  have h := Int.le_ceil x
  linarith

theorem ceil_sub_one_le_jsRound (x : ℚ) : ⌈x⌉ - 1 ≤ jsRound x := by
  unfold jsRound
  have h1 : ⌈x⌉ - 1 ≤ ⌊x⌋ := by
    have := Int.ceil_le_floor_add_one x
    omega
  have h2 : ⌊x⌋ ≤ ⌊x + 1/2⌋ := Int.floor_le_floor (by linarith)
  omega

theorem jsRound_intCast (n : ℤ) : jsRound (n : ℚ) = n := by
  unfold jsRound
  rw [Int.floor_int_add]
  norm_num

/-- C1 counterexample: the pagination calculation at flowExtent 2500,
viewport flow extent 1000 and page stride 1040 yields 2 pages
(`Math.round(2500/1040) = 2`), not the `⌈2500/1040⌉ = 3` the claim
states. -/
theorem claimC1_counterexample :
    pagedTotalPages 2500 1000 1040 = 2 ∧
    specTotalPagesCeil 2500 1000 1040 = 3 := by
  constructor
  · unfold pagedTotalPages jsRound
    norm_num
  · unfold specTotalPagesCeil
    rw [if_neg (by norm_num), Int.ceil_eq_iff]
    norm_num

/-- C1 (amended): the pagination calculation returns `totalPages = 1` when
the measured flow extent is at most the viewport flow extent plus the
epsilon (5 logical pixels), and otherwise
`totalPages = max 1 (round(flowExtent / pageStride))` with round-half-up —
a value that always lies between `⌈flowExtent / pageStride⌉ - 1` and
`⌈flowExtent / pageStride⌉`; in particular flowExtent 2500, viewport 1000,
page stride 1040 yields 2 pages, not 3. -/
theorem claimC1_amended_round (S V P : ℚ) (hS : V + 5 < S) (hV : 0 ≤ V)
    (hP : 0 < P) :
    pagedTotalPages S V P = max 1 (jsRound (S / P)) ∧
    Int.ceil (S / P) - 1 ≤ pagedTotalPages S V P ∧
    pagedTotalPages S V P ≤ Int.ceil (S / P) ∧
    (∀ S' V' : ℚ, S' ≤ V' + 5 → pagedTotalPages S' V' P = 1) := by
  have hbranch : pagedTotalPages S V P = max 1 (jsRound (S / P)) := by
    unfold pagedTotalPages
    rw [if_neg (not_le.mpr hS)]
  have hxpos : 0 < S / P := by
    apply div_pos _ hP
    linarith
  have hceil1 : 1 ≤ ⌈S / P⌉ := Int.ceil_pos.mpr hxpos
  refine ⟨hbranch, ?_, ?_, ?_⟩
  · rw [hbranch]
    exact le_trans (ceil_sub_one_le_jsRound _) (le_max_right _ _)
  · rw [hbranch]
    exact max_le hceil1 (jsRound_le_ceil _)
  · intro S' V' h
    unfold pagedTotalPages
    rw [if_pos h]

/-- Witness for C1's amended theorem at flowExtent 2500, viewport 1000,
stride 1040. -/
theorem claimC1_witness :
    Int.ceil ((2500 : ℚ) / 1040) - 1 ≤ pagedTotalPages 2500 1000 1040 ∧
    pagedTotalPages 2500 1000 1040 ≤ Int.ceil ((2500 : ℚ) / 1040) :=
  ⟨(claimC1_amended_round 2500 1000 1040 (by norm_num) (by norm_num)
      (by norm_num)).2.1,
   (claimC1_amended_round 2500 1000 1040 (by norm_num) (by norm_num)
      (by norm_num)).2.2.1⟩

/-! ## Paged reader navigation (`PagedReader.tsx`)

The navigation-relevant component state and the operations `scrollToPage`
(lines 181-195), `goToPage` (255-261), `goToSection` (263-288), `goNext`
(290-296) and `goPrev` (298-304), together with the pagination effect
(133-163) and the debounced scroll handler (228-240). -/

/-- Layout parameters of paged navigation: the viewport flow-axis extent
(`dimensions.height` when vertical, `dimensions.width` otherwise) and the
page stride `columnWidth + COLUMN_GAP`. -/
structure PagedLayout where
  viewport : ℚ
  pageWidth : ℚ

/-- Component state of `PagedReader`: `currentSection`, `currentPage`,
`totalPages`, `isReady` and the scroll container's scroll offset. -/
structure PagedState where
  currentSection : ℤ
  currentPage : ℤ
  totalPages : ℤ
  isReady : Bool
  scrollPos : ℚ

/-- `scrollToPage` (lines 181-195): scrolls the container to
`page * (columnWidth + COLUMN_GAP)` and sets the current page. -/
def scrollToPage (L : PagedLayout) (st : PagedState) (page : ℤ) :
    PagedState :=
  { st with scrollPos := page * L.pageWidth, currentPage := page }

/-- `goToPage` (lines 255-261): clamps the requested page into
`[0, totalPages-1]` and scrolls only when the clamped page differs from the
current one. -/
def goToPage (L : PagedLayout) (st : PagedState) (page : ℤ) : PagedState :=
  let clamped := max 0 (min page (st.totalPages - 1))
  if clamped ≠ st.currentPage then scrollToPage L st clamped else st

/-- `goToSection` (lines 263-288), synchronous part: clamps the requested
section into `[0, chapters.length-1]`, resets the page to 0 and clears
`isReady`. The body of its 100ms `setTimeout` is `goToSectionDeferred`. -/
def goToSection (numChapters : ℤ) (st : PagedState) (sec : ℤ) :
    PagedState :=
  { st with currentSection := max 0 (min sec (numChapters - 1)),
            currentPage := 0, isReady := false }

/-- The deferred body of `goToSection` (its 100ms `setTimeout`): with
`goToLastPage` it scrolls to the maximum scroll offset
`scrollSize - clientExtent` (clamped at 0 by the browser), otherwise to
page 0. `scrollSize` is the measured flow extent of the newly shown
chapter. -/
def goToSectionDeferred (L : PagedLayout) (goToLastPage : Bool)
    (scrollSize : ℚ) (st : PagedState) : PagedState :=
  if goToLastPage then { st with scrollPos := max 0 (scrollSize - L.viewport) }
  else scrollToPage L st 0

/-- The pagination effect (lines 133-163) once its 50ms timer fires:
recomputes `totalPages` from the measured flow extent and sets
`isReady`. -/
def metricsStep (L : PagedLayout) (scrollSize : ℚ) (st : PagedState) :
    PagedState :=
  { st with totalPages := pagedTotalPages scrollSize L.viewport L.pageWidth,
            isReady := true }

/-- The debounced scroll handler (lines 228-240): derives the page index
from the scroll position, `page = Math.round(scrollPos / pageSize)`. -/
def handleScrollStep (L : PagedLayout) (st : PagedState) : PagedState :=
  { st with currentPage := jsRound (st.scrollPos / L.pageWidth) }

/-- `goPrev` (lines 298-304): page back within the chapter, else switch to
the previous chapter with the go-to-last-page flag (returned as the
second component, it drives the deferred scroll of `goToSection`). -/
def goPrev (L : PagedLayout) (numChapters : ℤ) (st : PagedState) :
    PagedState × Bool :=
  if 0 < st.currentPage then (goToPage L st (st.currentPage - 1), false)
  else if 0 < st.currentSection then
    (goToSection numChapters st (st.currentSection - 1), true)
  else (st, false)

/-- The complete previous-chapter episode triggered by `goPrev`: the
synchronous part, then (when a chapter switch is pending) the pagination
effect for the previous chapter (50ms timer), the deferred scroll to the
chapter end (100ms timer), and the debounced scroll handler deriving the
final page index. `prevScrollSize` is the measured flow extent of the
previous chapter under the current layout. -/
def goPrevEpisode (L : PagedLayout) (numChapters : ℤ) (prevScrollSize : ℚ)
    (st : PagedState) : PagedState :=
  let r := goPrev L numChapters st
  if r.2 then
    handleScrollStep L
      (goToSectionDeferred L true prevScrollSize
        (metricsStep L prevScrollSize r.1))
  else r.1

/-- C2 counterexample: at chapter 2, page 0, with the previous chapter
measuring 3619 flow pixels under viewport 1000 and page stride 1040,
`goPrev` switches to chapter 1 whose metrics give `totalPages = 3`, but the
landing page resolves to `round((3619-1000)/1040) = 3`, not
`totalPages - 1 = 2`: the code scrolls to the maximum scroll offset rather
than resolving a last-page sentinel against the computed metrics. -/
theorem claimC2_counterexample :
    (goPrevEpisode ⟨1000, 1040⟩ 3 3619 ⟨2, 0, 3, true, 0⟩).currentSection
        = 1 ∧
    (goPrevEpisode ⟨1000, 1040⟩ 3 3619 ⟨2, 0, 3, true, 0⟩).totalPages = 3 ∧
    (goPrevEpisode ⟨1000, 1040⟩ 3 3619 ⟨2, 0, 3, true, 0⟩).currentPage = 3 := by
  refine ⟨?_, ?_, ?_⟩ <;>
  · simp only [goPrevEpisode, goPrev, goToSection, goToSectionDeferred,
      metricsStep, handleScrollStep, goToPage, scrollToPage, pagedTotalPages,
      jsRound]
    norm_num

/-- C2 (amended): when the reader is at page 0 of a chapter `c > 0`,
`prevPage()` moves to chapter `c-1` and scrolls to its maximum scroll
offset, the scroll handler then resolving the landing page as
`round((flowExtent - viewportExtent)/pageStride)` — this resolution
happening only after chapter `c-1`'s page metrics have been recomputed
(the pagination effect's 50ms timer precedes the deferred 100ms scroll).
The landing page equals `totalPages - 1` (pageIndex 3 for a 4-page
chapter) when the previous chapter's flow extent is an exact multiple
`n · pageStride` and the viewport extent lies in
`(pageStride/2, 3·pageStride/2]`, but not for every measured extent. -/
theorem claimC2_amended (L : PagedLayout) (numChapters n : ℤ)
    (st : PagedState) (hpage : st.currentPage = 0)
    (hsec : 0 < st.currentSection)
    (hsec2 : st.currentSection ≤ numChapters - 1)
    (hP : 0 < L.pageWidth)
    (hV1 : L.pageWidth / 2 < L.viewport)
    (hV2 : L.viewport ≤ 3 * L.pageWidth / 2)
    (hbig : L.viewport + 5 < n * L.pageWidth) :
    (goPrevEpisode L numChapters (n * L.pageWidth) st).currentSection
        = st.currentSection - 1 ∧
    (goPrevEpisode L numChapters (n * L.pageWidth) st).totalPages = n ∧
    (goPrevEpisode L numChapters (n * L.pageWidth) st).currentPage = n - 1 := by
  have hPne : L.pageWidth ≠ 0 := ne_of_gt hP
  have hVpos : 0 < L.viewport := lt_trans (by positivity) hV1
  have hn1 : 1 ≤ n := by
    by_contra h
    push_neg at h
    have hn0 : n ≤ 0 := by omega
    have : (n : ℚ) * L.pageWidth ≤ 0 := by
      apply mul_nonpos_of_nonpos_of_nonneg _ (le_of_lt hP)
      exact_mod_cast hn0
    linarith
  have hdiv : (n : ℚ) * L.pageWidth / L.pageWidth = (n : ℚ) :=
    mul_div_cancel_right₀ _ hPne
  have hepi : goPrevEpisode L numChapters (n * L.pageWidth) st =
      handleScrollStep L
        (goToSectionDeferred L true (n * L.pageWidth)
          (metricsStep L (n * L.pageWidth)
            (goToSection numChapters st (st.currentSection - 1)))) := by
    unfold goPrevEpisode goPrev
    rw [hpage]
    simp [hsec]
  rw [hepi]
  refine ⟨?_, ?_, ?_⟩
  · show max 0 (min (st.currentSection - 1) (numChapters - 1))
        = st.currentSection - 1
    omega
  · show pagedTotalPages ((n : ℚ) * L.pageWidth) L.viewport L.pageWidth = n
    unfold pagedTotalPages
    rw [if_neg (by linarith), jsRound, hdiv]
    have hfl : ⌊(n : ℚ) + 1/2⌋ = n := by
      rw [Int.floor_eq_iff]
      constructor <;> linarith
    rw [hfl]
    omega
  · show jsRound (max 0 ((n : ℚ) * L.pageWidth - L.viewport) / L.pageWidth)
        = n - 1
    have hmx : max 0 ((n : ℚ) * L.pageWidth - L.viewport) =
        (n : ℚ) * L.pageWidth - L.viewport := by
      rw [max_eq_right]
      linarith
    rw [hmx, jsRound]
    have hq : ((n : ℚ) * L.pageWidth - L.viewport) / L.pageWidth =
        (n : ℚ) - L.viewport / L.pageWidth := by
      field_simp
    rw [hq]
    have hr1 : L.viewport / L.pageWidth > 1/2 := by
      rw [gt_iff_lt, lt_div_iff₀ hP]
      linarith
    have hr2 : L.viewport / L.pageWidth ≤ 3/2 := by
      rw [div_le_iff₀ hP]
      linarith
    rw [Int.floor_eq_iff]
    push_cast
    constructor <;> linarith

/-- Witness for C2's amended theorem: scenario B, a 4-page previous
chapter (flow extent `4·1040 = 4160`, viewport 1000, stride 1040) lands on
chapter 1, pageIndex 3. -/
theorem claimC2_witness :
    (goPrevEpisode ⟨1000, 1040⟩ 3 (4 * 1040) ⟨2, 0, 3, true, 0⟩).currentSection
        = 1 ∧
    (goPrevEpisode ⟨1000, 1040⟩ 3 (4 * 1040) ⟨2, 0, 3, true, 0⟩).totalPages
        = 4 ∧
    (goPrevEpisode ⟨1000, 1040⟩ 3 (4 * 1040) ⟨2, 0, 3, true, 0⟩).currentPage
        = 3 := by
  have h := claimC2_amended ⟨1000, 1040⟩ 3 4 ⟨2, 0, 3, true, 0⟩ rfl
    (by norm_num) (by norm_num) (by norm_num) (by norm_num) (by norm_num)
    (by norm_num)
  have e : ((4 : ℤ) : ℚ) * (1040 : ℚ) = (4 * 1040 : ℚ) := by norm_num
  rw [e] at h
  refine ⟨?_, h.2.1, ?_⟩
  · rw [h.1]
    decide
  · rw [h.2.2]
    decide

/-- C6: clamp law. For every requested page index and every requested
chapter index — including negative and out-of-range requests — `goToPage`
and `goToSection` are total (saturating, never throwing) and leave the
navigation state with `0 ≤ currentPage ≤ totalPages - 1` and
`0 ≤ currentSection ≤ chapterCount - 1`, given the maintained invariants
`totalPages ≥ 1` (see `claimC9_totalPages_pos`) and a non-empty book. -/
theorem claimC6_clamp (L : PagedLayout) (numChapters : ℤ) (st : PagedState)
    (hT : 1 ≤ st.totalPages) (hC : 1 ≤ numChapters) (page sec : ℤ) :
    (0 ≤ (goToPage L st page).currentPage ∧
      (goToPage L st page).currentPage ≤ (goToPage L st page).totalPages - 1) ∧
    (0 ≤ (goToSection numChapters st sec).currentSection ∧
      (goToSection numChapters st sec).currentSection ≤ numChapters - 1 ∧
      0 ≤ (goToSection numChapters st sec).currentPage ∧
      (goToSection numChapters st sec).currentPage
        ≤ (goToSection numChapters st sec).totalPages - 1) := by
  constructor
  · unfold goToPage scrollToPage
    by_cases h : max 0 (min page (st.totalPages - 1)) ≠ st.currentPage
    · rw [if_pos h]
      constructor <;> (simp; try omega)
    · rw [if_neg h]
      push_neg at h
      constructor <;> omega
  · unfold goToSection
    refine ⟨?_, ?_, ?_, ?_⟩ <;> (simp; try omega)

/-- Witness for C6 at a concrete out-of-range request: a one-chapter,
one-page state with requested page 5 and requested chapter -3. -/
theorem claimC6_witness :
    (0 ≤ (goToPage ⟨1000, 1040⟩ ⟨0, 0, 1, true, 0⟩ 5).currentPage ∧
      (goToPage ⟨1000, 1040⟩ ⟨0, 0, 1, true, 0⟩ 5).currentPage
        ≤ (goToPage ⟨1000, 1040⟩ ⟨0, 0, 1, true, 0⟩ 5).totalPages - 1) ∧
    (0 ≤ (goToSection 1 ⟨0, 0, 1, true, 0⟩ (-3)).currentSection ∧
      (goToSection 1 ⟨0, 0, 1, true, 0⟩ (-3)).currentSection ≤ 1 - 1 ∧
      0 ≤ (goToSection 1 ⟨0, 0, 1, true, 0⟩ (-3)).currentPage ∧
      (goToSection 1 ⟨0, 0, 1, true, 0⟩ (-3)).currentPage
        ≤ (goToSection 1 ⟨0, 0, 1, true, 0⟩ (-3)).totalPages - 1) :=
  claimC6_clamp ⟨1000, 1040⟩ 1 ⟨0, 0, 1, true, 0⟩ (by norm_num) (by norm_num)
    5 (-3)

/-! ## Sentence anchor encoding (`useTextLookup.ts`, lines 82-146)

`getSentenceContext` takes the containing block element's concatenated
text (`contextElement.textContent`) and the tap point's character offset
within it (`totalOffset`), and scans for sentence boundaries with the
global regex `const sentenceEndRegex = /[。！？.!?]/g` applied via
`.test(fullText[i])` to single characters. Because the regex carries
`lastIndex` across calls, a successful match leaves `lastIndex = 1`, which
makes the next `.test` on a 1-character string fail (and reset
`lastIndex` to 0). The embedding threads this one-bit regex state
explicitly. -/

/-- The character class of `/[。！？.!?]/`. -/
def isSentenceEnd (c : Char) : Bool :=
  c = '。' || c = '！' || c = '？' || c = '.' || c = '!' || c = '?'

/-- One call of `sentenceEndRegex.test(s)` on a single-character string
`s`: `lastIndexOne` models `lastIndex = 1` (the only nonzero value that
can arise from 1-character inputs). Returns (result, new state). -/
def regexTestG (lastIndexOne : Bool) (c : Char) : Bool × Bool :=
  if lastIndexOne then (false, false)
  else if isSentenceEnd c then (true, true)
  else (false, false)

/-- The backward loop of `getSentenceContext`
(`for (let i = totalOffset - 1; i >= 0; i--)`), processing indices
`i, i-1, …, 0`: returns `(sentenceStart, regex state)`. -/
def sentenceStartLoop (text : List Char) : ℕ → Bool → ℕ × Bool
  | 0, st =>
    let p := regexTestG st (text.getD 0 ' ')
    if p.1 then (1, p.2) else (0, p.2)
  | i + 1, st =>
    let p := regexTestG st (text.getD (i + 1) ' ')
    if p.1 then (i + 2, p.2) else sentenceStartLoop text i p.2

/-- The backward scan starting from a fresh regex (`lastIndex = 0`); for
`totalOffset = 0` the loop body never runs. -/
def sentenceStartScan (text : List Char) (off : ℕ) : ℕ × Bool :=
  match off with
  | 0 => (0, false)
  | i + 1 => sentenceStartLoop text i false

/-- The forward loop of `getSentenceContext`
(`for (let i = totalOffset; i < fullText.length; i++)`), over the suffix
of the text starting at absolute index `i`, with the regex state left by
the backward loop: returns `sentenceEnd` (`i + 1` of the match, else the
text length). -/
def sentenceEndLoop : Bool → ℕ → List Char → ℕ
  | _, i, [] => i
  | st, i, c :: rest =>
    let p := regexTestG st c
    if p.1 then i + 1 else sentenceEndLoop p.2 (i + 1) rest

/-- The forward scan applied to the suffix at `totalOffset`. -/
def sentenceEndScan (text : List Char) (off : ℕ) (st : Bool) : ℕ :=
  sentenceEndLoop st off (text.drop off)

/-- The JavaScript `\s` / `String.prototype.trim` whitespace set
(WhiteSpace ∪ LineTerminator). -/
def jsWhitespaceChars : List Char :=
  [' ', '\t', '\n', '\r', '\u000B', '\u000C', ' ', ' ',
   ' ', ' ', ' ', ' ', ' ', ' ', ' ',
   ' ', ' ', ' ', ' ', ' ', ' ', ' ',
   ' ', '　', '﻿']

/-- Whether a character is JavaScript whitespace. -/
def isJsWhitespace (c : Char) : Bool := jsWhitespaceChars.contains c

/-- JavaScript `String.prototype.trim`. -/
def jsTrim (l : List Char) : List Char :=
  ((l.dropWhile isJsWhitespace).reverse.dropWhile isJsWhitespace).reverse

/-- UTF-8 byte length of a string (what
`new TextEncoder().encode(s).length` computes). -/
def utf8Len (l : List Char) : ℕ := (l.map Char.utf8Size).sum

/-- `getSentenceContext` (`useTextLookup.ts` lines 82-146, the branch with
a containing block element): extracts the sentence around `totalOffset`
and the byte offset of the tap within it.

```js
let sentenceStart = 0;
for (let i = totalOffset - 1; i >= 0; i--) {
  if (sentenceEndRegex.test(fullText[i])) { sentenceStart = i + 1; break; } }
let sentenceEnd = fullText.length;
for (let i = totalOffset; i < fullText.length; i++) {
  if (sentenceEndRegex.test(fullText[i])) { sentenceEnd = i + 1; break; } }
const sentence = fullText.substring(sentenceStart, sentenceEnd).trim();
const offsetInSentence = totalOffset - sentenceStart;
const sentencePrefix = sentence.substring(0, offsetInSentence);
const byteOffset = encoder.encode(sentencePrefix).length;
``` -/
def getSentenceContext (fullText : List Char) (totalOffset : ℕ) :
    List Char × ℕ :=
  let back := sentenceStartScan fullText totalOffset
  let sentenceEnd := sentenceEndScan fullText totalOffset back.2
  let sentence := jsTrim ((fullText.take sentenceEnd).drop back.1)
  (sentence, utf8Len (sentence.take (totalOffset - back.1)))

/-! ### Declarative descriptions of the sentence boundaries -/

/-- Greatest index `j ≤ i` whose character is a sentence delimiter. -/
def lastDelimIdx (text : List Char) : ℕ → Option ℕ
  | 0 => if isSentenceEnd (text.getD 0 ' ') then some 0 else none
  | i + 1 =>
    if isSentenceEnd (text.getD (i + 1) ' ') then some (i + 1)
    else lastDelimIdx text i

/-- Greatest delimiter index strictly before `off`, if any. -/
def lastDelimBefore (text : List Char) (off : ℕ) : Option ℕ :=
  match off with
  | 0 => none
  | i + 1 => lastDelimIdx text i

/-- Least delimiter index in `l`, reported as an absolute index given that
`l` sits at absolute position `i`. -/
def firstDelimIdx : ℕ → List Char → Option ℕ
  | _, [] => none
  | i, c :: rest =>
    if isSentenceEnd c then some i else firstDelimIdx (i + 1) rest

/-- Least delimiter index at or after position `start` of `text`. -/
def firstDelimFrom (text : List Char) (start : ℕ) : Option ℕ :=
  firstDelimIdx start (text.drop start)

/-- Sentence start derived from the previous delimiter: just after it, or
the block start. -/
def specStartOf (text : List Char) (off : ℕ) : ℕ :=
  match lastDelimBefore text off with
  | some i => i + 1
  | none => 0

/-- Exclusive sentence end derived from the first delimiter in `l`
(positioned at absolute index `i`): just after it, or past the whole
suffix. -/
def sentenceEndTarget (i : ℕ) (l : List Char) : ℕ :=
  match firstDelimIdx i l with
  | some j => j + 1
  | none => i + l.length

/-- Exclusive sentence end derived from the first delimiter at or after
`start`: just after it, or the text length. -/
def specEndFrom (text : List Char) (start : ℕ) : ℕ :=
  match firstDelimFrom text start with
  | some j => j + 1
  | none => text.length

/-- The sentence and byte offset the C3 claim describes: the untrimmed
substring running from just after the previous delimiter to the first
delimiter at or after the tap point (inclusive), with the byte offset the
UTF-8 length of the sentence prefix strictly before the tapped
character. -/
def specSentenceClaimed (text : List Char) (off : ℕ) : List Char × ℕ :=
  let s := specStartOf text off
  let e := specEndFrom text off
  ((text.take e).drop s, utf8Len ((text.take off).drop s))

/-- What the code actually computes, stated without the loop/regex state:
the sentence is the *trimmed* substring whose end is the first delimiter
at or after the tap point — except that when some delimiter precedes the
tap point the search effectively starts one position later (the leftover
`lastIndex` of the global regex swallows a delimiter exactly at the tap
point) — and the byte offset counts the first `off - sentenceStart`
characters of the *trimmed* sentence. -/
def specSentenceAmended (text : List Char) (off : ℕ) : List Char × ℕ :=
  let s := specStartOf text off
  let searchStart :=
    off + (if (lastDelimBefore text off).isSome then 1 else 0)
  let e := specEndFrom text searchStart
  let sentence := jsTrim ((text.take e).drop s)
  (sentence, utf8Len (sentence.take (off - s)))

theorem regexTestG_false (c : Char) :
    regexTestG false c = (isSentenceEnd c, isSentenceEnd c) := by
  unfold regexTestG
  cases h : isSentenceEnd c <;> simp

theorem regexTestG_true (c : Char) : regexTestG true c = (false, false) := rfl

theorem sentenceStartLoop_eq (text : List Char) (i : ℕ) :
    sentenceStartLoop text i false =
      (specStartOf text (i + 1), (lastDelimIdx text i).isSome) := by
  induction i with
  | zero =>
    simp only [sentenceStartLoop, specStartOf, lastDelimBefore, lastDelimIdx,
      regexTestG_false]
    cases h : isSentenceEnd (text.getD 0 ' ') <;> simp
  | succ i ih =>
    simp only [sentenceStartLoop, regexTestG_false]
    cases h : isSentenceEnd (text.getD (i + 1) ' ')
    · simp only [Bool.false_eq_true, reduceIte, ih]
      simp only [specStartOf, lastDelimBefore, lastDelimIdx, h]
      simp
    · simp only [reduceIte]
      simp only [specStartOf, lastDelimBefore, lastDelimIdx, h]
      simp

theorem sentenceStartScan_eq (text : List Char) (off : ℕ) :
    sentenceStartScan text off =
      (specStartOf text off, (lastDelimBefore text off).isSome) := by
  cases off with
  | zero => rfl
  | succ i => exact sentenceStartLoop_eq text i

theorem sentenceEndLoop_false (l : List Char) :
    ∀ i : ℕ, sentenceEndLoop false i l = sentenceEndTarget i l := by
  induction l with
  | nil => intro i; simp [sentenceEndLoop, sentenceEndTarget, firstDelimIdx]
  | cons c rest ih =>
    intro i
    simp only [sentenceEndLoop, regexTestG_false]
    cases h : isSentenceEnd c
    · simp only [Bool.false_eq_true, reduceIte, ih (i + 1)]
      simp only [sentenceEndTarget, firstDelimIdx, h, Bool.false_eq_true,
        reduceIte]
      cases hf : firstDelimIdx (i + 1) rest <;> (simp [List.length_cons]; try omega)
    · simp only [reduceIte]
      simp only [sentenceEndTarget, firstDelimIdx, h, reduceIte]

theorem sentenceEndScan_eq (text : List Char) (off : ℕ)
    (hoff : off ≤ text.length) (st : Bool) :
    sentenceEndScan text off st =
      specEndFrom text (off + (if st then 1 else 0)) := by
  cases st with
  | false =>
    show sentenceEndLoop false off (text.drop off) = _
    rw [sentenceEndLoop_false]
    simp only [Bool.false_eq_true, reduceIte, Nat.add_zero, specEndFrom,
      firstDelimFrom, sentenceEndTarget]
    cases hf : firstDelimIdx off (text.drop off) <;> (simp; try omega)
  | true =>
    by_cases hlt : off < text.length
    · show sentenceEndLoop true off (text.drop off) = _
      rw [List.drop_eq_getElem_cons hlt]
      show sentenceEndLoop false (off + 1) (text.drop (off + 1)) = _
      rw [sentenceEndLoop_false]
      simp only [reduceIte, specEndFrom, firstDelimFrom, sentenceEndTarget]
      cases hf : firstDelimIdx (off + 1) (text.drop (off + 1)) <;> (simp; try omega)
    · have heq : off = text.length := le_antisymm hoff (not_lt.mp hlt)
      show sentenceEndLoop true off (text.drop off) = _
      rw [List.drop_eq_nil_of_le (le_of_eq heq.symm)]
      simp only [sentenceEndLoop, specEndFrom, firstDelimFrom, reduceIte]
      rw [List.drop_eq_nil_of_le (by omega)]
      simp [firstDelimIdx, heq]

/-- C3 counterexample: in the block text `"a.　b.c"` (with an ideographic
space) a tap on the delimiter at character offset 4 should, per the claim,
produce the sentence `"　b."` (the delimited substring ending at the first
delimiter at/after the tap, punctuation included) with byte offset 4 (the
UTF-8 length of `"　b"`); the code instead produces `"b.c"` with byte
offset 2 — the global regex's leftover `lastIndex` makes the forward
`.test` skip the delimiter at the tap point, and the sentence is trimmed
before the prefix is measured. -/
theorem claimC3_counterexample :
    getSentenceContext ("a.　b.c".toList) 4 = ("b.c".toList, 2) ∧
    specSentenceClaimed ("a.　b.c".toList) 4 = ("　b.".toList, 4) := by
  constructor <;> decide

/-- C3 (amended): for every tap inside a block-level text run, the encoded
sentence is the **trimmed** substring of the block's text that starts just
after the nearest delimiter before the tap (or at the block start) and
ends at the first delimiter at or after the tap point, punctuation
included — except that a delimiter exactly at the tap point is skipped
whenever some delimiter precedes the tap (the stateful global regex) — and
the byte offset is the UTF-8 byte length of the first
`tapOffset - sentenceStart` characters of the trimmed sentence. -/
theorem claimC3_amended (text : List Char) (off : ℕ)
    (hoff : off ≤ text.length) :
    getSentenceContext text off = specSentenceAmended text off := by
  unfold getSentenceContext specSentenceAmended
  rw [sentenceStartScan_eq]
  dsimp only
  rw [sentenceEndScan_eq text off hoff]

/-- Witness for C3's amended theorem at the counterexample input. -/
theorem claimC3_witness :
    getSentenceContext ("a.　b.c".toList) 4
      = specSentenceAmended ("a.　b.c".toList) 4 :=
  claimC3_amended ("a.　b.c".toList) 4 (by decide)

/-! ## Position restoration

The restoration effect of `ContinuousReader.tsx` (lines 133-185) and the
initial-navigation effect of `PagedReader.tsx` (lines 197-212). A chapter's
rendered content is modelled as the list of its text-node contents (the
`TreeWalker(SHOW_TEXT)` order), a book as the list of its chapters'
rendered node lists (a chapter element `[data-chapter="i"]` exists iff `i`
is in range). -/

/-- Where a restoration attempt leaves the view. -/
inductive RestoreTarget where
  | sentenceNode (idx : ℕ)
  | chapterStart (c : ℕ)
  | docStart
  | pageScroll (page : ℤ)
  | stay
  deriving DecidableEq

/-- The `TreeWalker` loop of the restoration effect: index of the first
text node that is non-empty and contains the stored sentence
(`node.textContent && node.textContent.includes(sentenceText)`). -/
def walkerFind (s : List Char) : List (List Char) → Option ℕ
  | [] => none
  | n :: rest =>
    if n ≠ [] ∧ s <:+: n then some 0
    else (walkerFind s rest).map (· + 1)

/-- The restoration effect of `ContinuousReader.tsx` (lines 133-185):
when `initialProgress?.sentenceText` is truthy and the target chapter
element exists, scroll the first text node containing the sentence into
view and stop; otherwise scroll to the chapter start (`initialChapter > 0`
and the chapter element exists), to the document start
(`initialChapter = 0`), or nowhere (chapter element missing). -/
def continuousRestore (chapters : List (List (List Char)))
    (initialChapter : ℕ) (sentenceText : Option (List Char)) :
    RestoreTarget :=
  let found : Option ℕ :=
    match sentenceText with
    | some s =>
      if s = [] then none
      else
        match chapters.get? initialChapter with
        | some nodes => walkerFind s nodes
        | none => none
    | none => none
  match found with
  | some idx => RestoreTarget.sentenceNode idx
  | none =>
    if 0 < initialChapter then
      if initialChapter < chapters.length then
        RestoreTarget.chapterStart initialChapter
      else RestoreTarget.stay
    else RestoreTarget.docStart

/-- The initial-navigation effect of `PagedReader.tsx` (lines 197-212):
ignores the sentence text of `initialProgress` altogether and scrolls to
the stored `initialPage` when it is positive, else stays at the chapter
start. -/
def pagedInitialNav (initialPage : ℤ)
    (_sentenceText : Option (List Char)) : RestoreTarget :=
  if 0 < initialPage then RestoreTarget.pageScroll initialPage
  else RestoreTarget.stay

/-- The restoration cascade the C5 claim describes (for comparison with
the code's behaviour): first an exact sentence match, then the stored page
index, then the chapter start. -/
def restoreClaimed (chapters : List (List (List Char))) (initialChapter : ℕ)
    (sentenceText : Option (List Char)) (pageIndex : Option ℤ) :
    RestoreTarget :=
  let found : Option ℕ :=
    match sentenceText with
    | some s =>
      if s = [] then none
      else
        match chapters.get? initialChapter with
        | some nodes => walkerFind s nodes
        | none => none
    | none => none
  match found with
  | some idx => RestoreTarget.sentenceNode idx
  | none =>
    match pageIndex with
    | some p => RestoreTarget.pageScroll p
    | none => RestoreTarget.chapterStart initialChapter

theorem walkerFind_eq_some (s : List Char) :
    ∀ (nodes : List (List Char)) (idx : ℕ),
      walkerFind s nodes = some idx →
      ∃ n, nodes.get? idx = some n ∧ n ≠ [] ∧ s <:+: n := by
  intro nodes
  induction nodes with
  | nil => intro idx h; simp [walkerFind] at h
  | cons n rest ih =>
    intro idx h
    unfold walkerFind at h
    by_cases hc : n ≠ [] ∧ s <:+: n
    · rw [if_pos hc] at h
      cases h
      exact ⟨n, rfl, hc⟩
    · rw [if_neg hc] at h
      rcases Option.map_eq_some'.mp h with ⟨j, hj, rfl⟩
      rcases ih j hj with ⟨n', hn', hprop⟩
      exact ⟨n', hn', hprop⟩

theorem walkerFind_isSome (s : List Char) :
    ∀ nodes : List (List Char),
      (∃ n ∈ nodes, n ≠ [] ∧ s <:+: n) →
      ∃ idx, walkerFind s nodes = some idx := by
  intro nodes
  induction nodes with
  | nil => intro h; simp at h
  | cons n rest ih =>
    intro h
    unfold walkerFind
    by_cases hc : n ≠ [] ∧ s <:+: n
    · exact ⟨0, by rw [if_pos hc]⟩
    · rw [if_neg hc]
      have hr : ∃ m ∈ rest, m ≠ [] ∧ s <:+: m := by
        rcases h with ⟨m, hm, hprop⟩
        rcases List.mem_cons.mp hm with rfl | hm'
        · exact absurd hprop hc
        · exact ⟨m, hm', hprop⟩
      rcases ih hr with ⟨j, hj⟩
      exact ⟨j + 1, by rw [hj]; rfl⟩

/-- C4 counterexample: the chapter's block renders the sentence
`"He nodded."` split over two text nodes `"He nod"`, `"ded."` (as ruby or
inline markup splits text). Encoding at tap offset 0 produces exactly the
sentence `"He nodded."`, which is present verbatim in the rendered
content (it is an infix of the concatenated text), yet restoration finds
no single text node containing it and falls back to the document start
instead of a location containing the sentence. -/
theorem claimC4_counterexample :
    (getSentenceContext ("He nodded.".toList) 0).1 = "He nodded.".toList ∧
    ("He nodded.".toList
      <:+: (["He nod".toList, "ded.".toList] : List (List Char)).flatten) ∧
    continuousRestore [["He nod".toList, "ded.".toList]] 0
        (some ((getSentenceContext ("He nodded.".toList) 0).1))
      = RestoreTarget.docStart := by
  refine ⟨by decide, by decide, by decide⟩

/-- C4 (amended): for every position produced by encoding, restoring it
against the same chapter content resolves to a text-node target whose
text includes the position's sentence text, whenever the sentence text is
non-empty and wholly contained in a single text node of the target
chapter's rendered content. -/
theorem claimC4_roundtrip (chapters : List (List (List Char))) (i : ℕ)
    (nodes : List (List Char)) (full : List Char) (off : ℕ)
    (hch : chapters.get? i = some nodes)
    (hs : (getSentenceContext full off).1 ≠ [])
    (hmem : ∃ n ∈ nodes, (getSentenceContext full off).1 <:+: n) :
    ∃ idx n,
      continuousRestore chapters i (some ((getSentenceContext full off).1))
        = RestoreTarget.sentenceNode idx ∧
      nodes.get? idx = some n ∧ (getSentenceContext full off).1 <:+: n := by
  have hmem' : ∃ n ∈ nodes, n ≠ [] ∧ (getSentenceContext full off).1 <:+: n := by
    rcases hmem with ⟨n, hn, hinf⟩
    refine ⟨n, hn, ?_, hinf⟩
    rintro rfl
    exact hs (List.eq_nil_of_infix_nil hinf)
  rcases walkerFind_isSome _ nodes hmem' with ⟨idx, hidx⟩
  rcases walkerFind_eq_some _ nodes idx hidx with ⟨n, hn, _, hinf⟩
  refine ⟨idx, n, ?_, hn, hinf⟩
  unfold continuousRestore
  rw [hch]
  dsimp only
  rw [if_neg hs, hidx]

/-- Witness for C4's round-trip theorem: the sentence `"Hi."` encoded at
tap offset 0 in a chapter whose single text node is `"Hi."`. -/
theorem claimC4_witness :
    ∃ idx n,
      continuousRestore [["Hi.".toList]] 0
          (some ((getSentenceContext ("Hi.".toList) 0).1))
        = RestoreTarget.sentenceNode idx ∧
      (["Hi.".toList] : List (List Char)).get? idx = some n ∧
      (getSentenceContext ("Hi.".toList) 0).1 <:+: n :=
  claimC4_roundtrip [["Hi.".toList]] 0 ["Hi.".toList] ("Hi.".toList) 0
    (by decide) (by decide) (by decide)

/-- C5 counterexample: the paged reader's initial-navigation effect
receives a stored sentence (`"Hi."`) that is present in the rendered
chapter and a stored page index 2, and scrolls to page 2 without ever
searching for the sentence — whereas the claimed cascade would resolve the
sentence match first. -/
theorem claimC5_counterexample :
    pagedInitialNav 2 (some ("Hi.".toList)) = RestoreTarget.pageScroll 2 ∧
    restoreClaimed [["Hi.".toList]] 0 (some ("Hi.".toList)) (some 2)
      = RestoreTarget.sentenceNode 0 ∧
    RestoreTarget.pageScroll 2 ≠ RestoreTarget.sentenceNode 0 := by
  refine ⟨by decide, by decide, by decide⟩

/-- C5 (amended): restoration is total and a miss is silent — every
restoration attempt resolves to one of the benign targets. The continuous
reader first searches the target chapter's text nodes for one containing
the stored sentence and scrolls to it; when there is no match (or no
stored sentence) it falls back to the chapter start (chapter element
present, index positive) or the document start (index 0), never to a
stored page index. The stored page index is used only by the paged
reader's initial navigation, which scrolls to it when positive and
otherwise stays at the chapter start, ignoring the sentence text. -/
theorem claimC5_restore_cascade (chapters : List (List (List Char)))
    (i : ℕ) (s : List Char) (nodes : List (List Char)) (p : ℤ) :
    (chapters.get? i = some nodes → s ≠ [] →
      ∀ idx, walkerFind s nodes = some idx →
        continuousRestore chapters i (some s)
          = RestoreTarget.sentenceNode idx) ∧
    (chapters.get? i = some nodes → walkerFind s nodes = none → 0 < i →
      i < chapters.length →
        continuousRestore chapters i (some s)
          = RestoreTarget.chapterStart i) ∧
    (continuousRestore chapters i none =
      if 0 < i then
        if i < chapters.length then RestoreTarget.chapterStart i
        else RestoreTarget.stay
      else RestoreTarget.docStart) ∧
    (∀ s' : Option (List Char),
      pagedInitialNav p s' =
        if 0 < p then RestoreTarget.pageScroll p else RestoreTarget.stay) := by
  refine ⟨?_, ?_, ?_, ?_⟩
  · intro hch hs idx hidx
    unfold continuousRestore
    rw [hch]
    dsimp only
    rw [if_neg hs, hidx]
  · intro hch hnone hi hlen
    unfold continuousRestore
    rw [hch]
    dsimp only
    by_cases hs : s = []
    · rw [if_pos hs]
      dsimp only
      rw [if_pos hi, if_pos hlen]
    · rw [if_neg hs, hnone]
      dsimp only
      rw [if_pos hi, if_pos hlen]
  · rfl
  · intro s'
    rfl

/-- Witness for C5's amended theorem: a two-chapter book; restoring
chapter 1 with the sentence `"Hi."` hits its text node, restoring chapter
1 with an absent sentence falls back to the chapter start, and paged
initial navigation goes to the stored positive page. -/
theorem claimC5_witness :
    continuousRestore [["A.".toList], ["Hi.".toList]] 1 (some ("Hi.".toList))
      = RestoreTarget.sentenceNode 0 ∧
    continuousRestore [["A.".toList], ["Hi.".toList]] 1 (some ("Zz".toList))
      = RestoreTarget.chapterStart 1 ∧
    pagedInitialNav 2 none = RestoreTarget.pageScroll 2 := by
  refine ⟨?_, ?_, ?_⟩
  · exact (claimC5_restore_cascade [["A.".toList], ["Hi.".toList]] 1
      ("Hi.".toList) ["Hi.".toList] 2).1 (by decide) (by decide) 0 (by decide)
  · exact (claimC5_restore_cascade [["A.".toList], ["Hi.".toList]] 1
      ("Zz".toList) ["Hi.".toList] 2).2.1 (by decide) (by decide)
      (by decide) (by decide)
  · exact ((claimC5_restore_cascade [["A.".toList], ["Hi.".toList]] 1
      ("Hi.".toList) ["Hi.".toList] 2).2.2.2 none).trans (by decide)

/-! ## Touch gesture drag flag

`handleTouchMove` of `PagedReader.tsx` (lines 370-376) and of
`useReaderCore` (lines 176-184, with `DRAG_THRESHOLD = 10`):

```js
const dx = Math.abs(e.nativeEvent.touches[0].clientX - startPosRef.current.x);
const dy = Math.abs(e.nativeEvent.touches[0].clientY - startPosRef.current.y);
if (dx > 10 || dy > 10) { isDraggingRef.current = true; }
```

The flag is reset to `false` only on touch start / pointer down (a new
session) and is never cleared during a session. -/

/-- A pointer/touch coordinate. -/
structure TouchPoint where
  x : ℚ
  y : ℚ

/-- One `handleTouchMove` call: sets the drag flag when either axis
distance from the session's start point exceeds the 10px threshold,
otherwise leaves it unchanged. -/
def handleTouchMoveStep (start : TouchPoint) (flag : Bool)
    (p : TouchPoint) : Bool :=
  if |p.x - start.x| > 10 ∨ |p.y - start.y| > 10 then true else flag

/-- The drag flag at the end of a session that started at `start` (flag
reset to `false` by `handleTouchStart`) and saw the given move events. -/
def sessionDragFlag (start : TouchPoint) (moves : List TouchPoint) : Bool :=
  moves.foldl (handleTouchMoveStep start) false

theorem handleTouchMoveStep_within (start p : TouchPoint)
    (h : (p.x - start.x) ^ 2 + (p.y - start.y) ^ 2 ≤ 10 ^ 2) (flag : Bool) :
    handleTouchMoveStep start flag p = flag := by
  unfold handleTouchMoveStep
  rw [if_neg]
  push_neg
  constructor
  · rw [abs_le]
    constructor <;> nlinarith [sq_nonneg (p.y - start.y)]
  · rw [abs_le]
    constructor <;> nlinarith [sq_nonneg (p.x - start.x)]

theorem sessionDragFlag_all_within (start : TouchPoint) :
    ∀ moves : List TouchPoint,
      (∀ p ∈ moves, (p.x - start.x) ^ 2 + (p.y - start.y) ^ 2 ≤ 10 ^ 2) →
      moves.foldl (handleTouchMoveStep start) false = false := by
  intro moves
  induction moves with
  | nil => intro _; rfl
  | cons p rest ih =>
    intro h
    rw [List.foldl_cons,
      handleTouchMoveStep_within start p (h p (List.mem_cons_self p rest))]
    exact ih fun q hq => h q (List.mem_cons_of_mem p hq)

/-- C7: a gesture session whose move events all stay within Euclidean
distance 10px of the start point is never flagged as a drag — at no
point during the session (any prefix of the moves), however many move
events there are — and is therefore classified as a tap. -/
theorem claimC7_tap_classification (start : TouchPoint)
    (moves : List TouchPoint)
    (h : ∀ p ∈ moves, (p.x - start.x) ^ 2 + (p.y - start.y) ^ 2 ≤ 10 ^ 2) :
    ∀ k : ℕ,
      (moves.take k).foldl (handleTouchMoveStep start) false = false :=
  fun k => sessionDragFlag_all_within start (moves.take k)
    fun p hp => h p (List.mem_of_mem_take hp)

/-- Witness for C7: scenario D — start (100,100), moves to (103,101) and
(104,99), all within 10px. -/
theorem claimC7_witness :
    (([⟨103, 101⟩, ⟨104, 99⟩] : List TouchPoint).take 2).foldl
      (handleTouchMoveStep ⟨100, 100⟩) false = false :=
  claimC7_tap_classification ⟨100, 100⟩ [⟨103, 101⟩, ⟨104, 99⟩]
    (by
      intro p hp
      rcases List.mem_cons.mp hp with rfl | hp'
      · norm_num
      · rcases List.mem_cons.mp hp' with rfl | hp''
        · norm_num
        · simp at hp'')
    2

/-! ## Click / touch-end dispatch under the drag flag

`handleClick` (`PagedReader.tsx` lines 352-361) and `handleTouchEndEvent`
(lines 378-387). The swipe-navigation result of `handleTouchEnd` from
`utils/navigation` (a file not among the sources; only its Boolean result
matters here) is abstracted as `navResult`. -/

/-- The observable outcome of a click: whether the lookup callback
(`tryLookup`) was invoked and whether the toggle-chrome callback
(`onToggleUI`) was invoked. -/
structure ClickOutcome where
  lookupAttempted : Bool
  toggled : Bool
  deriving DecidableEq

/-- `handleClick` (lines 352-361): returns immediately while the drag
flag is set; skips interactive targets; otherwise invokes `tryLookup` and
toggles the chrome only when the lookup did not fire. -/
def pagedHandleClick (isDragging onInteractive lookupSucceeds : Bool) :
    ClickOutcome :=
  if isDragging then ⟨false, false⟩
  else if onInteractive then ⟨false, false⟩
  else ⟨true, !lookupSucceeds⟩

/-- `handleTouchEndEvent` (lines 378-387): whether the toggle-chrome
callback is invoked — only when there was no swipe-navigation result and
the drag flag is clear. -/
def pagedHandleTouchEndToggled (navResult isDragging : Bool) : Bool :=
  !navResult && !isDragging

/-- C8: the drag flag is latched — once set it survives every further
move event of the session — and while it is set the click handler invokes
neither the lookup callback nor the toggle-chrome callback, and the
touch-end handler never toggles the chrome. -/
theorem claimC8_drag_latch :
    (∀ (start : TouchPoint) (moves : List TouchPoint),
      moves.foldl (handleTouchMoveStep start) true = true) ∧
    (∀ onInteractive lookupSucceeds : Bool,
      pagedHandleClick true onInteractive lookupSucceeds = ⟨false, false⟩) ∧
    (∀ navResult : Bool, pagedHandleTouchEndToggled navResult true = false) := by
  refine ⟨?_, ?_, ?_⟩
  · intro start moves
    induction moves with
    | nil => rfl
    | cons p rest ih =>
      rw [List.foldl_cons]
      have hstep : handleTouchMoveStep start true p = true := by
        unfold handleTouchMoveStep
        split <;> rfl
      rw [hstep, ih]
  · intro onInteractive lookupSucceeds
    rfl
  · intro navResult
    simp [pagedHandleTouchEndToggled]

/-! ## Progress persistence guard (`LNReaderScreen`)

`handleSaveProgress` (lines 92-109):

```js
const handleSaveProgress = (chapterIndex, pageIndex, extraData) => {
  if (!id) return;
  const sentence = (extraData?.sentenceText || '').trim();
  if (!sentence) return;
  AppStorage.saveLnProgress(id, { chapterId: 'chapter', chapterIndex,
    pageNumber: typeof pageIndex === 'number' ? pageIndex : undefined,
    textOffset: extraData?.textOffset, totalProgress: extraData?.totalProgress,
    sentenceText: sentence, lastRead: Date.now() });
};
```

The paged reader's scroll handler (`PagedReader.tsx` lines 228-239)
reports page-only relocations as `onRelocated(currentSection, page)` with
no progress data, i.e. `extraData = none` here. The store is modelled as
a map from book id to its progress record. -/

/-- The stored progress record (`saveLnProgress` payload). -/
structure LnProgressRecord where
  chapterIndex : ℤ
  pageNumber : Option ℤ
  textOffset : Option ℤ
  totalProgress : Option ℚ
  sentenceText : List Char
  lastRead : ℕ

/-- The optional progress payload accompanying a relocation
(`ProgressData`). -/
structure ProgressData where
  sentenceText : Option (List Char)
  textOffset : Option ℤ
  totalProgress : Option ℚ

/-- `AppStorage.saveLnProgress`: write the record under the book id. -/
def saveLnProgress (store : String → Option LnProgressRecord) (id : String)
    (rec : LnProgressRecord) : String → Option LnProgressRecord :=
  fun b => if b = id then some rec else store b

/-- The trimmed sentence `(extraData?.sentenceText || '').trim()`. -/
def savedSentence (extraData : Option ProgressData) : List Char :=
  jsTrim (match extraData with
    | some e => e.sentenceText.getD []
    | none => [])

/-- `handleSaveProgress`: refuses to write unless a book id is present
and the accompanying data carries a sentence that is non-empty after
trimming. -/
def handleSaveProgress (store : String → Option LnProgressRecord)
    (id : Option String) (chapterIndex : ℤ) (pageIndex : Option ℤ)
    (extraData : Option ProgressData) (now : ℕ) :
    String → Option LnProgressRecord :=
  match id with
  | none => store
  | some bid =>
    let sentence := savedSentence extraData
    if sentence = [] then store
    else
      saveLnProgress store bid
        { chapterIndex := chapterIndex
          pageNumber := pageIndex
          textOffset := extraData.bind (fun e => e.textOffset)
          totalProgress := extraData.bind (fun e => e.totalProgress)
          sentenceText := sentence
          lastRead := now }

/-- C10: progress is persisted only on a sentence commit. A save whose
data lacks a non-empty trimmed sentence leaves the whole store — in
particular the book's record — unchanged; any change to the store implies
a present book id and a supplied sentence that is non-empty after
trimming; and the page-only relocations reported by the paged reader's
scroll handler (no progress data) never write. -/
theorem claimC10_sentence_commit
    (store : String → Option LnProgressRecord) (id : Option String)
    (chapterIndex : ℤ) (pageIndex : Option ℤ)
    (extraData : Option ProgressData) (now : ℕ) :
    (savedSentence extraData = [] →
      ∀ b, handleSaveProgress store id chapterIndex pageIndex extraData now b
        = store b) ∧
    (∀ b, handleSaveProgress store id chapterIndex pageIndex extraData now b
        ≠ store b →
      ∃ bid e, id = some bid ∧ extraData = some e ∧
        jsTrim (e.sentenceText.getD []) ≠ []) ∧
    (∀ b, handleSaveProgress store id chapterIndex pageIndex none now b
        = store b) := by
  refine ⟨?_, ?_, ?_⟩
  · intro hempty b
    cases id with
    | none => rfl
    | some bid =>
      unfold handleSaveProgress
      dsimp only
      rw [if_pos hempty]
  · intro b hne
    cases id with
    | none => exact absurd rfl hne
    | some bid =>
      unfold handleSaveProgress at hne
      dsimp only at hne
      by_cases hempty : savedSentence extraData = []
      · rw [if_pos hempty] at hne
        exact absurd rfl hne
      · cases hext : extraData with
        | none =>
          rw [hext] at hempty
          exact absurd (by decide) hempty
        | some e =>
          refine ⟨bid, e, rfl, rfl, ?_⟩
          rw [hext] at hempty
          simpa [savedSentence] using hempty
  · intro b
    cases id with
    | none => rfl
    | some bid =>
      unfold handleSaveProgress
      dsimp only
      rw [if_pos (by decide)]

/-- Witness for C10: a whitespace-only sentence payload writes nothing to
an empty store, and a page-only relocation (no payload) writes nothing. -/
theorem claimC10_witness :
    handleSaveProgress (fun _ => none) (some "book") 3 (some 2)
        (some ⟨some ("  ".toList), none, none⟩) 0 "book" = none ∧
    handleSaveProgress (fun _ => none) (some "book") 3 (some 2) none 0 "book"
      = none := by
  constructor
  · exact (claimC10_sentence_commit (fun _ => none) (some "book") 3 (some 2)
      (some ⟨some ("  ".toList), none, none⟩) 0).1 (by decide) "book"
  · exact (claimC10_sentence_commit (fun _ => none) (some "book") 3 (some 2)
      none 0).1 (by decide) "book"

end Mangatan
